import Mathlib

/-!
Verification of the Media-Platform asynchronous media-processing pipeline.

This file gives a shallow embedding of the processing worker
(`lambda/index.js`: `handler`, `processMedia`, `processImage`,
`processVideo`, `updateMediaStatus`, `updateMediaMetadata`,
`invalidateUserMediaCache`) and of the listing endpoint
(`GET /api/media` in `backend/src/index.js`), together with theorems
about the data-model invariants of the pipeline.

External services are modelled as explicit state: the relational store
is a list of media rows, the object store is an association list from
keys to stored objects (a put prepends, a get returns the most recent
entry), the cache is an association list from keys to listing payloads.
Fallible external calls are modelled by an explicit fault record whose
fields inject an error at the corresponding call site; the control flow
around those calls is translated from the JavaScript source.
-/

namespace MediaPlatform

/-- Status values of a media row (`media.status` in `schema.sql`:
pending, processing, ready, failed). -/
inductive MediaStatus where
  | pending
  | processing
  | ready
  | failed
deriving DecidableEq, Repr

/-- The metadata object built by `processMedia` / `processImage` /
`processVideo`.  The JavaScript value is an open object; each field the
worker may set is modelled as an `Option`, `none` meaning the field is
absent from the object. -/
structure Metadata where
  size : Option Nat := none
  contentType : Option String := none
  width : Option Nat := none
  height : Option Nat := none
  format : Option String := none
  duration : Option Nat := none
  codec : Option String := none
  thumbnailKey : Option String := none
  mediumKey : Option String := none
deriving DecidableEq, Repr

/-- The field names present on a metadata object (the keys an enumeration
of the JavaScript object would yield), in declaration order. -/
def presentFields (m : Metadata) : List String :=
  (if m.size.isSome then ["size"] else []) ++
  (if m.contentType.isSome then ["contentType"] else []) ++
  (if m.width.isSome then ["width"] else []) ++
  (if m.height.isSome then ["height"] else []) ++
  (if m.format.isSome then ["format"] else []) ++
  (if m.duration.isSome then ["duration"] else []) ++
  (if m.codec.isSome then ["codec"] else []) ++
  (if m.thumbnailKey.isSome then ["thumbnailKey"] else []) ++
  (if m.mediumKey.isSome then ["mediumKey"] else [])

/-- One row of the `media` table (`schema.sql`).  Timestamps are
abstract naturals; nullable columns are `Option`. -/
structure MediaRow where
  id : Nat
  userId : String
  s3Key : String
  fileName : String
  fileType : String
  status : MediaStatus
  metadata : Option Metadata
  thumbnailKey : Option String
  errorMessage : Option String
  createdAt : Nat
  updatedAt : Nat
  processedAt : Option Nat
deriving DecidableEq, Repr

/-- The `media` table. -/
abbrev DB : Type := List MediaRow

/-- `p` is a prefix of `s` (the semantics of JavaScript
`s.startsWith(p)`), computed on the character lists. -/
def strStartsWith (s p : String) : Bool :=
  p.data.isPrefixOf s.data

/-- Helper for the regex `\.[^.]+$`: the input is the reversed character
list of the subject string; the result is `some pre` (reversed prefix
before the matched dot) when the string ends with a dot followed by at
least one non-dot character, `none` when the regex does not match. -/
def stripExtRev (rcs : List Char) : Option (List Char) :=
  match rcs.dropWhile (fun c => c ≠ '.') with
  | '.' :: pre => if (rcs.takeWhile (fun c => c ≠ '.')).isEmpty then none else some pre
  | _ => none

/-- JavaScript `s.replace(/\.[^.]+$/, suffix)`: replace the final
dot-extension (the last dot and everything after it, provided the
characters after the last dot are non-empty) with `suffix`; when the
regex does not match, return the string unchanged. -/
def replaceExt (s : String) (suffix : String) : String :=
  match stripExtRev s.data.reverse with
  | some pre => String.mk (pre.reverse ++ suffix.data)
  | none => s

/-- Derivative key for thumbnails: `s3Key.replace(/\.[^.]+$/, '_thumb.jpg')`. -/
def thumbKeyOf (s3Key : String) : String := replaceExt s3Key "_thumb.jpg"

/-- Derivative key for medium images: `s3Key.replace(/\.[^.]+$/, '_medium.jpg')`. -/
def mediumKeyOf (s3Key : String) : String := replaceExt s3Key "_medium.jpg"

/-- Round-to-nearest (half away from zero) of the ratio `a / b`, the
rounding used by the resize pipeline when scaling a dimension. -/
def roundDiv (a b : Nat) : Nat := (2 * a + b) / (2 * b)

/-- Semantics of sharp `resize(tW, tH, fit cover)`: the output always has
exactly the requested dimensions (the source is scaled and cropped to
fill them). -/
def fitCover (_w _h tW tH : Nat) : Nat × Nat := (tW, tH)

/-- Semantics of sharp `resize(tW, tH, fit inside)`: scale by the common
factor `min (tW / w) (tH / h)` (enlarging when the source is smaller
than the target box, since `withoutEnlargement` is not set), rounding
each scaled dimension to the nearest integer. -/
def fitInside (w h tW tH : Nat) : Nat × Nat :=
  if tW * h ≤ tH * w then (tW, roundDiv (h * tW) w)
  else (roundDiv (w * tH) h, tH)

/-- Intrinsic properties of a decodable image, as reported by sharp
`metadata()`. -/
structure ImageInfo where
  width : Nat
  height : Nat
  format : String
deriving DecidableEq, Repr

/-- Bodies of objects in the object store.  Uploaded originals carry
their intrinsic properties; `jpegOut w h q` is the output of the sharp
resize/JPEG pipeline with those output dimensions and quality;
`base64Png b` is a buffer decoded from the base64 literal `b`. -/
inductive Blob where
  | image (info : ImageInfo) (len : Nat)
  | video (len : Nat)
  | other (len : Nat)
  | jpegOut (w h quality : Nat)
  | base64Png (b64 : String)
deriving DecidableEq, Repr

/-- Number of bytes a base64 string decodes to. -/
def base64DecodedLen (s : String) : Nat :=
  s.length / 4 * 3 - s.data.count '='

/-- Byte length of a blob.  The byte length of the JPEG encoder's output
is a property of the external encoder and is not modelled (no claim
depends on it). -/
def blobLen : Blob → Nat
  | .image _ len => len
  | .video len => len
  | .other len => len
  | .jpegOut _ _ _ => 0
  | .base64Png b64 => base64DecodedLen b64

/-- A stored object: body, content type and content length
(`ContentLength` as reported by a get). -/
structure S3Object where
  body : Blob
  contentType : String
  contentLength : Nat
deriving DecidableEq, Repr

/-- The object store: an association list, most recent put first. -/
abbrev S3Store : Type := List (String × S3Object)

/-- Get the object stored under `key` (the most recent put wins). -/
def s3find (store : S3Store) (key : String) : Option S3Object :=
  match List.find? (fun kv => kv.1 == key) store with
  | some kv => some kv.2
  | none => none

/-- `putObject`: store `body` under `key` with the given content type. -/
def s3putObject (store : S3Store) (key : String) (body : Blob) (ct : String) : S3Store :=
  (key, { body := body, contentType := ct, contentLength := blobLen body }) :: store

/-- sharp `metadata()` on a buffer: succeeds on decodable images,
reporting intrinsic width/height/format, and fails on anything else with
the decoder's error. -/
def decodeImage : Blob → Except String ImageInfo
  | .image info _ => .ok info
  | .jpegOut w h _ => .ok { width := w, height := h, format := "jpeg" }
  | .base64Png _ => .ok { width := 1, height := 1, format := "png" }
  | .video _ => .error "Input buffer contains unsupported image format"
  | .other _ => .error "Input buffer contains unsupported image format"

/-- `processImage(s3Key, imageBuffer, metadata)` from `lambda/index.js`,
given the decoded intrinsic properties of the buffer: record
width/height/format, write a 300×300 cover-fit JPEG (quality 80) under
the `_thumb.jpg` derivative key, write an 800×800 inside-fit JPEG
(quality 85) under the `_medium.jpg` derivative key, and record both
derivative keys in the metadata. -/
def processImage (s3Key : String) (info : ImageInfo) (md : Metadata)
    (store : S3Store) : Metadata × S3Store :=
  let md1 : Metadata :=
    { md with width := some info.width, height := some info.height,
              format := some info.format }
  let tDims := fitCover info.width info.height 300 300
  let store1 := s3putObject store (thumbKeyOf s3Key) (Blob.jpegOut tDims.1 tDims.2 80) "image/jpeg"
  let md2 : Metadata := { md1 with thumbnailKey := some (thumbKeyOf s3Key) }
  let mDims := fitInside info.width info.height 800 800
  let store2 := s3putObject store1 (mediumKeyOf s3Key) (Blob.jpegOut mDims.1 mDims.2 85) "image/jpeg"
  let md3 : Metadata := { md2 with mediumKey := some (mediumKeyOf s3Key) }
  (md3, store2)

/-- The base64 literal of the placeholder thumbnail written by
`processVideo` (a 1×1 PNG). -/
def placeholderThumbnailB64 : String :=
  "iVBORw0KGgoAAAANSUhEUgAAAAEAAAABCAYAAAAfFcSJAAAADUlEQVR42mNk+M9QDwADhgGAWjR9awAAAABJRU5ErkJggg=="

/-- `processVideo(s3Key, videoBuffer, metadata)` from `lambda/index.js`:
set `duration` to 0 and `codec` to "unknown", write the fixed base64
placeholder image under the `_thumb.jpg` derivative key, and record the
derivative key in the metadata. -/
def processVideo (s3Key : String) (md : Metadata)
    (store : S3Store) : Metadata × S3Store :=
  let md1 : Metadata := { md with duration := some 0, codec := some "unknown" }
  let store1 := s3putObject store (thumbKeyOf s3Key)
    (Blob.base64Png placeholderThumbnailB64) "image/jpeg"
  let md2 : Metadata := { md1 with thumbnailKey := some (thumbKeyOf s3Key) }
  (md2, store1)

/-- The cache: an association list from redis keys to cached listing
payloads, most recent set first.  Cached values are the listing payloads
the API stores (JSON serialization is assumed to round-trip). -/
abbrev Cache : Type := List (String × List MediaRow)

/-- `redis.get`: the most recent value set under `k`, if any. -/
def cacheGet (c : Cache) (k : String) : Option (List MediaRow) :=
  match List.find? (fun kv => kv.1 == k) c with
  | some kv => some kv.2
  | none => none

/-- `redis.setex` (the TTL is not modelled; no claim depends on expiry). -/
def cacheSet (c : Cache) (k : String) (v : List MediaRow) : Cache :=
  (k, v) :: c

/-- `redis.del k`: remove every entry stored under `k`. -/
def cacheDel (c : Cache) (k : String) : Cache :=
  c.filter (fun kv => kv.1 != k)

/-- Redis glob matching (`KEYS pattern`), with explicit fuel (the fuel is
always sufficient when it is at least `pat.length + s.length + 1`). -/
def globMatchFuel : Nat → List Char → List Char → Bool
  | 0, _, _ => false
  | _ + 1, [], [] => true
  | fuel + 1, '*' :: ps, [] => globMatchFuel fuel ps []
  | fuel + 1, '*' :: ps, c :: cs =>
      globMatchFuel fuel ps (c :: cs) || globMatchFuel fuel ('*' :: ps) cs
  | fuel + 1, '?' :: ps, _ :: cs => globMatchFuel fuel ps cs
  | fuel + 1, p :: ps, c :: cs => p == c && globMatchFuel fuel ps cs
  | _ + 1, _ :: _, [] => false
  | _ + 1, [], _ :: _ => false

/-- Redis glob matching of a key against a pattern. -/
def globMatchStr (pat s : String) : Bool :=
  globMatchFuel (pat.length + s.length + 1) pat.data s.data

/-- `redis.keys pattern` followed by `redis.del` of every returned key:
remove every entry whose key matches the glob pattern. -/
def cacheDelMatching (c : Cache) (pat : String) : Cache :=
  c.filter (fun kv => !(globMatchStr pat kv.1))

/-- JavaScript template interpolation of a possibly-undefined value
(an undefined variable interpolates as the string "undefined"). -/
def jsInterp : Option String → String
  | some s => s
  | none => "undefined"

/-- The user-scoped listing cache key built by the API and by the
worker. -/
def userMediaKey (uid : String) : String :=
  "user:" ++ uid ++ ":media"

/-- `invalidateUserMediaCache(userId)` from `lambda/index.js`: for the
patterns `user:{userId}:media` (no wildcard, deleted directly) and
`user:{userId}:media:*` (wildcard, keys enumerated by glob then
deleted). -/
def invalidateUserMediaCache (c : Cache) (userId : Option String) : Cache :=
  cacheDelMatching (cacheDel c (userMediaKey (jsInterp userId)))
    (userMediaKey (jsInterp userId) ++ ":*")

/-- `updateMediaStatus(mediaId, status, errorMessage)` from
`lambda/index.js`: `UPDATE media SET status, error_message, updated_at
WHERE id = mediaId`.  A `none` mediaId (JavaScript `undefined`, sent as
SQL NULL) matches no row. -/
def updateMediaStatus (db : DB) (mediaId : Option Nat) (status : MediaStatus)
    (errorMessage : Option String) (now : Nat) : DB :=
  List.map (fun r =>
    if some r.id = mediaId then
      { r with status := status, errorMessage := errorMessage, updatedAt := now }
    else r) db

/-- `updateMediaMetadata(mediaId, metadata, status)` from
`lambda/index.js`: `UPDATE media SET status, metadata, thumbnail_key,
processed_at = NOW(), updated_at = NOW() WHERE id = mediaId`; the
`thumbnail_key` column is set to `metadata.thumbnailKey`, which is SQL
NULL when the metadata object has no such field. -/
def updateMediaMetadata (db : DB) (mediaId : Option Nat) (md : Metadata)
    (status : MediaStatus) (now : Nat) : DB :=
  List.map (fun r =>
    if some r.id = mediaId then
      { r with status := status, metadata := some md,
               thumbnailKey := md.thumbnailKey,
               processedAt := some now, updatedAt := now }
    else r) db

/-- A parsed SQS message body.  Each required field is optional: the
JavaScript destructuring of a parsed object yields `undefined` for a
missing field rather than failing. -/
structure JobMsg where
  mediaId : Option Nat
  userId : Option String
  s3Key : Option String
  fileType : Option String
deriving DecidableEq, Repr

/-- The external state the worker reads and writes. -/
structure WorkerEnv where
  db : DB
  s3 : S3Store
  cache : Cache
deriving DecidableEq

/-- Fault injection for the worker's fallible external calls: a `some e`
field makes the corresponding call raise `e`.  `statusUpdateErr` is the
initial status write, `fetchErr` the object-store get, `transformErr`
any failure inside the image/video transform other than a decode
failure, `persistErr` the completion write, `cacheErr` the cache
invalidation. -/
structure Faults where
  statusUpdateErr : Option String := none
  fetchErr : Option String := none
  transformErr : Option String := none
  persistErr : Option String := none
  cacheErr : Option String := none
deriving DecidableEq, Repr

/-- The fault-free environment. -/
def noFaults : Faults := {}

/-- The tail of `processMedia` shared by all dispatch branches: persist
the metadata with status ready (`updateMediaMetadata`), then invalidate
the owner's cached listings. -/
def finishRun (f : Faults) (now : Nat) (msg : JobMsg) (md : Metadata)
    (env : WorkerEnv) : Except (String × WorkerEnv) WorkerEnv :=
  match f.persistErr with
  | some e => .error (e, env)
  | none =>
    let env1 : WorkerEnv :=
      { env with db := updateMediaMetadata env.db msg.mediaId md .ready now }
    match f.cacheErr with
    | some e => .error (e, env1)
    | none => .ok { env1 with cache := invalidateUserMediaCache env1.cache msg.userId }

/-- The body of the `try` block of `processMedia(message)`: transition
to processing, fetch the original object, dispatch on the declared type
prefix, persist, invalidate.  On an exception the result carries the
error message together with the state at the point of failure. -/
def processMediaTry (f : Faults) (now : Nat) (msg : JobMsg)
    (env : WorkerEnv) : Except (String × WorkerEnv) WorkerEnv :=
  match f.statusUpdateErr with
  | some e => .error (e, env)
  | none =>
    let env1 : WorkerEnv :=
      { env with db := updateMediaStatus env.db msg.mediaId .processing none now }
    match msg.s3Key with
    | none => .error ("MissingRequiredParameter: Missing required key Key in params", env1)
    | some key =>
      match f.fetchErr with
      | some e => .error (e, env1)
      | none =>
        match s3find env1.s3 key with
        | none => .error ("NoSuchKey: The specified key does not exist.", env1)
        | some obj =>
          let md0 : Metadata :=
            { size := some obj.contentLength, contentType := some obj.contentType }
          match msg.fileType with
          | none => .error ("TypeError: Cannot read properties of undefined (reading startsWith)", env1)
          | some ft =>
            if strStartsWith ft "image/" then
              match f.transformErr with
              | some e => .error (e, env1)
              | none =>
                match decodeImage obj.body with
                | .error e => .error (e, env1)
                | .ok info =>
                  let r := processImage key info md0 env1.s3
                  finishRun f now msg r.1 { env1 with s3 := r.2 }
            else if strStartsWith ft "video/" then
              match f.transformErr with
              | some e => .error (e, env1)
              | none =>
                let r := processVideo key md0 env1.s3
                finishRun f now msg r.1 { env1 with s3 := r.2 }
            else
              finishRun f now msg md0 env1

/-- `processMedia(message)` with its `catch` block: on any exception the
media row is transitioned to failed with the captured error message,
then the exception is re-raised. -/
def processMediaRun (f : Faults) (now : Nat) (msg : JobMsg)
    (env : WorkerEnv) : Except (String × WorkerEnv) WorkerEnv :=
  match processMediaTry f now msg env with
  | .ok env1 => .ok env1
  | .error (e, env1) =>
    .error (e, { env1 with
      db := updateMediaStatus env1.db msg.mediaId .failed (some e) now })

/-- A delivered SQS record: either a body that fails `JSON.parse`, or a
parsed message. -/
inductive SqsRecord where
  | malformed (raw : String)
  | parsed (msg : JobMsg)

/-- `exports.handler(event)` from `lambda/index.js`: process the
records in order; the first exception is re-raised, failing the whole
invocation (the second component is the raised error, `none` when the
invocation returns normally). -/
def handler (f : Faults) (now : Nat) :
    List SqsRecord → WorkerEnv → WorkerEnv × Option String
  | [], env => (env, none)
  | .malformed _ :: _, env =>
      (env, some "SyntaxError: Unexpected token in JSON at position 0")
  | .parsed msg :: rest, env =>
    match processMediaRun f now msg env with
    | .ok env1 => handler f now rest env1
    | .error (e, env1) => (env1, some e)

/-- The database query of `GET /api/media`: rows of the user with status
ready, ordered by `created_at` descending, limited to 50. -/
def mediaListing (db : DB) (uid : String) : List MediaRow :=
  (List.insertionSort (fun a b => b.createdAt ≤ a.createdAt)
    (db.filter (fun r => r.userId == uid && r.status == .ready))).take 50

/-- `GET /api/media` from `backend/src/index.js`: return the cached
listing when present, otherwise query the database, cache the result
and return it. -/
def apiListMedia (cache : Cache) (db : DB) (uid : String) :
    List MediaRow × Cache :=
  match cacheGet cache (userMediaKey uid) with
  | some payload => (payload, cache)
  | none =>
    let rows := mediaListing db uid
    (rows, cacheSet cache (userMediaKey uid) rows)

/-- `Except.isOk` for the worker's result type. -/
def exceptIsOk : Except (String × WorkerEnv) WorkerEnv → Bool
  | .ok _ => true
  | .error _ => false

/-! ### Theorems -/

/-- C6: the narrow status-only update writes only `status`,
`error_message` and `updated_at`: row count is preserved, every other
column of every row is unchanged, and the written columns change exactly
on the rows whose id matches. -/
theorem C6_status_update_frame (db : DB) (mid : Option Nat) (st : MediaStatus)
    (err : Option String) (now : Nat) :
    (updateMediaStatus db mid st err now).length = db.length ∧
    (updateMediaStatus db mid st err now).map
        (fun r => (r.id, r.userId, r.s3Key, r.fileName, r.fileType, r.metadata,
                   r.thumbnailKey, r.createdAt, r.processedAt)) =
      db.map (fun r => (r.id, r.userId, r.s3Key, r.fileName, r.fileType, r.metadata,
                   r.thumbnailKey, r.createdAt, r.processedAt)) ∧
    (updateMediaStatus db mid st err now).map
        (fun r => (r.status, r.errorMessage, r.updatedAt)) =
      db.map (fun r => if some r.id = mid then (st, err, now)
                       else (r.status, r.errorMessage, r.updatedAt)) := by
  refine ⟨?_, ?_, ?_⟩ <;>
    · induction db with
      | nil => simp [updateMediaStatus]
      | cons a l ih =>
        by_cases h : some a.id = mid <;>
          simp [updateMediaStatus, h] at ih ⊢ <;> exact ih

/-- The rows of a status-only update keep their `processedAt` and `id`. -/
theorem updateMediaStatus_keeps_processedAt (db : DB) (mid : Option Nat)
    (st : MediaStatus) (err : Option String) (now : Nat) :
    (updateMediaStatus db mid st err now).map (fun r => (r.id, r.processedAt)) =
      db.map (fun r => (r.id, r.processedAt)) := by
  induction db with
  | nil => simp [updateMediaStatus]
  | cons a l ih =>
    by_cases h : some a.id = mid <;>
      simp [updateMediaStatus, h] at ih ⊢ <;> exact ih

/-- Rows of a status-only update whose id matches carry the written
status and error message. -/
theorem updateMediaStatus_matched (db : DB) (mid : Option Nat)
    (st : MediaStatus) (err : Option String) (now : Nat) :
    ∀ r ∈ updateMediaStatus db mid st err now,
      some r.id = mid → r.status = st ∧ r.errorMessage = err := by
  intro r hr hid
  obtain ⟨a, _, rfl⟩ := List.mem_map.mp hr
  by_cases h : some a.id = mid
  · simp [h]
  · simp only [if_neg h] at hid ⊢
    exact absurd hid h

instance : IsTotal MediaRow (fun a b => b.createdAt ≤ a.createdAt) :=
  ⟨fun a b => le_total b.createdAt a.createdAt⟩

instance : IsTrans MediaRow (fun a b => b.createdAt ≤ a.createdAt) :=
  ⟨fun _ _ _ h1 h2 => le_trans h2 h1⟩

/-- The properties the listing endpoint guarantees of a payload for user
`uid`: only rows of that user with status ready, at most 50 of them,
ordered by `createdAt` descending. -/
def listingGood (uid : String) (l : List MediaRow) : Prop :=
  (∀ r ∈ l, r.status = .ready ∧ r.userId = uid) ∧
  l.length ≤ 50 ∧
  List.Sorted (fun a b => b.createdAt ≤ a.createdAt) l

/-- Every fresh database listing satisfies `listingGood`. -/
theorem mediaListing_good (uid : String) (db : DB) :
    listingGood uid (mediaListing db uid) := by
  refine ⟨?_, ?_, ?_⟩
  · intro r hr
    have hr2 := List.mem_of_mem_take hr
    have hr3 := (List.perm_insertionSort
      (fun a b : MediaRow => b.createdAt ≤ a.createdAt) _).mem_iff.mp hr2
    have hr4 := List.mem_filter.mp hr3
    have := hr4.2
    simp only [Bool.and_eq_true, beq_iff_eq] at this
    exact ⟨this.2, this.1⟩
  · simp [mediaListing, List.length_take]
  · exact (List.sorted_insertionSort _ _).sublist (List.take_sublist _ _)

/-- C10: the media listing endpoint returns only rows of the requesting
user with status ready, at most 50 of them, ordered by `createdAt`
descending — whether the payload is served fresh from the database or
from a cache entry that an earlier listing query stored. -/
theorem C10_listing_only_ready_bounded_sorted (cache : Cache) (db : DB) (uid : String)
    (hcache : ∀ v, cacheGet cache (userMediaKey uid) = some v →
      ∃ db0, v = mediaListing db0 uid) :
    listingGood uid (apiListMedia cache db uid).1 := by
  unfold apiListMedia
  cases hc : cacheGet cache (userMediaKey uid) with
  | some payload =>
    obtain ⟨db0, rfl⟩ := hcache payload hc
    exact mediaListing_good uid db0
  | none => exact mediaListing_good uid db

/-- The final `/`-separated segment of a key. -/
def lastSegment (s : String) : String :=
  String.mk (s.data.reverse.takeWhile (fun c => c ≠ '/')).reverse

/-- When the subject contains no dot at all, the regex `\.[^.]+$` does
not match and the replacement returns the string unchanged. -/
theorem replaceExt_no_dot (s suffix : String) (h : ∀ c ∈ s.data, c ≠ '.') :
    replaceExt s suffix = s := by
  have hd : s.data.reverse.dropWhile (fun c => c ≠ '.') = [] := by
    apply List.dropWhile_eq_nil_iff.mpr
    intro x hx
    simpa using h x (List.mem_reverse.mp hx)
  unfold replaceExt stripExtRev
  rw [hd]

/-- C9 (corrected): for a key that contains no dot anywhere, the
derivative-key derivation returns the key unchanged, so `processImage`
writes both derivatives to the original object's key and the most recent
write (the medium derivative) is what a subsequent get of the original
key returns — the original upload is silently overwritten. -/
theorem C9_no_dot_key_overwrites_original (key : String) (info : ImageInfo)
    (md : Metadata) (store : S3Store) (h : ∀ c ∈ key.data, c ≠ '.') :
    thumbKeyOf key = key ∧ mediumKeyOf key = key ∧
    s3find (processImage key info md store).2 key =
      some { body := Blob.jpegOut (fitInside info.width info.height 800 800).1
                       (fitInside info.width info.height 800 800).2 85,
             contentType := "image/jpeg", contentLength := 0 } := by
  have ht : thumbKeyOf key = key := replaceExt_no_dot key _ h
  have hm : mediumKeyOf key = key := replaceExt_no_dot key _ h
  refine ⟨ht, hm, ?_⟩
  simp [processImage, hm, s3putObject, s3find, List.find?, blobLen, fitCover]

/-- C9 (counterexample to the claim as stated): the key
`uploads/u.1/cat` has a final segment with no dot, yet the derivation
does not return the key unchanged — the regex `\.[^.]+$` matches across
the path separator from the dot in the earlier segment, rewriting the
key to `uploads/u_thumb.jpg`. -/
theorem C9_counterexample :
    (∀ c ∈ (lastSegment "uploads/u.1/cat").data, c ≠ '.') ∧
    thumbKeyOf "uploads/u.1/cat" ≠ "uploads/u.1/cat" ∧
    thumbKeyOf "uploads/u.1/cat" = "uploads/u_thumb.jpg" ∧
    mediumKeyOf "uploads/u.1/cat" = "uploads/u_medium.jpg" := by decide

/-- C9 witness for the corrected statement, at a dot-free key. -/
theorem C9_witness :
    (∀ c ∈ ("uploads/7/cat" : String).data, c ≠ '.') ∧
    (thumbKeyOf "uploads/7/cat" = "uploads/7/cat" ∧
     mediumKeyOf "uploads/7/cat" = "uploads/7/cat" ∧
     s3find (processImage "uploads/7/cat" { width := 10, height := 20, format := "png" }
         {} []).2 "uploads/7/cat" =
       some { body := Blob.jpegOut (fitInside 10 20 800 800).1
                        (fitInside 10 20 800 800).2 85,
              contentType := "image/jpeg", contentLength := 0 }) :=
  ⟨by decide, C9_no_dot_key_overwrites_original "uploads/7/cat"
    { width := 10, height := 20, format := "png" } {} [] (by decide)⟩

/-- Round-to-nearest division satisfies
`|2 * b * roundDiv a b - 2 * a| ≤ b`. -/
theorem roundDiv_bounds (a b : Nat) (hb : 1 ≤ b) :
    2 * a ≤ 2 * b * roundDiv a b + b ∧ 2 * b * roundDiv a b ≤ 2 * a + b := by
  have hdm := Nat.div_add_mod (2 * a + b) (2 * b)
  have hml : (2 * a + b) % (2 * b) < 2 * b := Nat.mod_lt _ (by omega)
  unfold roundDiv
  generalize hq : (2 * a + b) / (2 * b) = q at hdm ⊢
  generalize hr : (2 * a + b) % (2 * b) = r at hdm hml
  generalize hm : 2 * b * q = m at hdm ⊢
  omega

/-- `roundDiv a b ≤ c` whenever `a ≤ b * c`. -/
theorem roundDiv_le (a b c : Nat) (hb : 1 ≤ b) (h : a ≤ b * c) :
    roundDiv a b ≤ c := by
  unfold roundDiv
  have h2b : 0 < 2 * b := by omega
  have h1 : 2 * a + b ≤ b + c * (2 * b) := by
    have : c * (2 * b) = 2 * (b * c) := by ring
    omega
  calc (2 * a + b) / (2 * b) ≤ (b + c * (2 * b)) / (2 * b) :=
        Nat.div_le_div_right h1
    _ = b / (2 * b) + c := Nat.add_mul_div_right b c h2b
    _ = c := by rw [Nat.div_eq_of_lt (by omega), Nat.zero_add]

/-- C3 (corrected): for every decodable image, `processImage` writes a
thumbnail derivative of exactly 300×300 (cover fit) and a medium
derivative whose dimensions both stay within 800 and whose aspect ratio
matches the source's within rounding
(`|mediumW * h - w * mediumH| * 2 ≤ max w h`).  The medium derivative is
produced by the inside fit without an enlargement guard, so it is not
capped at the source dimensions (see the counterexample). -/
theorem C3_image_derivative_dimensions (key : String) (info : ImageInfo)
    (md : Metadata) (store : S3Store)
    (hw : 1 ≤ info.width) (hh : 1 ≤ info.height) :
    (processImage key info md store).2 =
      (mediumKeyOf key,
        { body := Blob.jpegOut (fitInside info.width info.height 800 800).1
                    (fitInside info.width info.height 800 800).2 85,
          contentType := "image/jpeg", contentLength := 0 }) ::
      (thumbKeyOf key,
        { body := Blob.jpegOut 300 300 80,
          contentType := "image/jpeg", contentLength := 0 }) :: store ∧
    fitCover info.width info.height 300 300 = (300, 300) ∧
    (fitInside info.width info.height 800 800).1 ≤ 800 ∧
    (fitInside info.width info.height 800 800).2 ≤ 800 ∧
    2 * ((fitInside info.width info.height 800 800).1 * info.height) ≤
      2 * (info.width * (fitInside info.width info.height 800 800).2) +
        max info.width info.height ∧
    2 * (info.width * (fitInside info.width info.height 800 800).2) ≤
      2 * ((fitInside info.width info.height 800 800).1 * info.height) +
        max info.width info.height := by
  refine ⟨by simp [processImage, s3putObject, blobLen, fitCover], rfl, ?_, ?_, ?_, ?_⟩ <;>
    · unfold fitInside
      by_cases hc : 800 * info.height ≤ 800 * info.width <;>
        simp only [if_pos, if_neg, hc, if_true, if_false]
      case pos =>
        first
        | exact le_refl 800
        | exact roundDiv_le _ _ _ hw (by
            calc info.height * 800 = 800 * info.height := by ring
              _ ≤ 800 * info.width := hc
              _ = info.width * 800 := by ring)
        | · have hb := roundDiv_bounds (info.height * 800) info.width hw
            generalize hq : roundDiv (info.height * 800) info.width = q at hb ⊢
            have e1 : 2 * info.width * q = 2 * (info.width * q) := by ring
            have e2 : info.height * 800 = 800 * info.height := by ring
            rw [e1, e2] at hb
            generalize hm : info.width * q = m at hb ⊢
            have hmx : info.width ≤ max info.width info.height := le_max_left _ _
            omega
      case neg =>
        first
        | exact roundDiv_le _ _ _ hh (by
            calc info.width * 800 ≤ info.height * 800 := by
                  have := Nat.lt_of_not_le hc
                  omega
              _ = info.height * 800 := rfl)
        | exact le_refl 800
        | · have hb := roundDiv_bounds (info.width * 800) info.height hh
            generalize hq : roundDiv (info.width * 800) info.height = q at hb ⊢
            have e1 : 2 * info.height * q = 2 * (info.height * q) := by ring
            rw [e1] at hb
            have e3 : 2 * (q * info.height) = 2 * (info.height * q) := by ring
            rw [e3]
            generalize hm : info.height * q = m at hb ⊢
            have hmx : info.height ≤ max info.width info.height := le_max_right _ _
            omega

/-- Pointwise description of the rows after a status-only update. -/
theorem updateMediaStatus_mem (db : DB) (mid : Option Nat) (st : MediaStatus)
    (err : Option String) (now : Nat) :
    ∀ r ∈ updateMediaStatus db mid st err now,
      ∃ b ∈ db, r.id = b.id ∧ r.metadata = b.metadata ∧
        r.thumbnailKey = b.thumbnailKey ∧ r.processedAt = b.processedAt ∧
        r.status = (if some b.id = mid then st else b.status) ∧
        r.errorMessage = (if some b.id = mid then err else b.errorMessage) := by
  intro r hr
  obtain ⟨b, hb, rfl⟩ := List.mem_map.mp hr
  by_cases h : some b.id = mid <;> exact ⟨b, hb, by simp [h]⟩

/-- Pointwise description of the rows after a completion update. -/
theorem updateMediaMetadata_mem (db : DB) (mid : Option Nat) (md : Metadata)
    (st : MediaStatus) (now : Nat) :
    ∀ r ∈ updateMediaMetadata db mid md st now,
      ∃ b ∈ db, r.id = b.id ∧ r.errorMessage = b.errorMessage ∧
        (some b.id = mid →
          r.status = st ∧ r.metadata = some md ∧
          r.thumbnailKey = md.thumbnailKey ∧ r.processedAt = some now) ∧
        (¬ some b.id = mid → r = b) := by
  intro r hr
  obtain ⟨b, hb, rfl⟩ := List.mem_map.mp hr
  by_cases h : some b.id = mid <;> exact ⟨b, hb, by simp [h]⟩

/-- A successful `finishRun` performed the completion update and the
cache invalidation and did not touch the object store. -/
theorem finishRun_ok_char (f : Faults) (now : Nat) (msg : JobMsg) (md : Metadata)
    (env env' : WorkerEnv) (h : finishRun f now msg md env = .ok env') :
    env'.db = updateMediaMetadata env.db msg.mediaId md .ready now ∧
    env'.s3 = env.s3 ∧
    env'.cache = invalidateUserMediaCache env.cache msg.userId := by
  unfold finishRun at h
  cases hp : f.persistErr with
  | some e => rw [hp] at h; exact absurd h (by simp)
  | none =>
    rw [hp] at h
    dsimp only at h
    cases hcch : f.cacheErr with
    | some e => rw [hcch] at h; exact absurd h (by simp)
    | none =>
      rw [hcch] at h
      simp only [Except.ok.injEq] at h
      subst h
      exact ⟨rfl, rfl, rfl⟩

/-- A failed `finishRun` with no cache-invalidation fault raised before
the completion update: the state at the failure point is unchanged. -/
theorem finishRun_err_char (f : Faults) (now : Nat) (msg : JobMsg) (md : Metadata)
    (env env' : WorkerEnv) (e : String) (hcch : f.cacheErr = none)
    (h : finishRun f now msg md env = .error (e, env')) :
    env' = env := by
  unfold finishRun at h
  cases hp : f.persistErr with
  | some e0 =>
    rw [hp] at h
    simp only [Except.error.injEq, Prod.mk.injEq] at h
    exact h.2.symm
  | none =>
    rw [hp] at h
    dsimp only at h
    rw [hcch] at h
    exact absurd h (by simp)

/-- Characterization of a successful `processMedia` try: both database
updates ran against the message's mediaId, the cache was invalidated for
the message's userId, the persisted metadata has a `size` field, and it
has a `thumbnailKey` field exactly when the declared type dispatched to
the image or video transform. -/
theorem processMediaTry_ok_char (f : Faults) (now : Nat) (msg : JobMsg)
    (env env' : WorkerEnv) (h : processMediaTry f now msg env = .ok env') :
    ∃ ft md, msg.fileType = some ft ∧
      env'.db = updateMediaMetadata
        (updateMediaStatus env.db msg.mediaId .processing none now)
        msg.mediaId md .ready now ∧
      env'.cache = invalidateUserMediaCache env.cache msg.userId ∧
      md.size.isSome = true ∧
      (md.thumbnailKey.isSome = true ↔
        (strStartsWith ft "image/" = true ∨ strStartsWith ft "video/" = true)) := by
  unfold processMediaTry at h
  cases h1 : f.statusUpdateErr with
  | some e => rw [h1] at h; exact absurd h (by simp)
  | none =>
    rw [h1] at h
    dsimp only at h
    cases h2 : msg.s3Key with
    | none => rw [h2] at h; exact absurd h (by simp)
    | some key =>
      rw [h2] at h
      dsimp only at h
      cases h3 : f.fetchErr with
      | some e => rw [h3] at h; exact absurd h (by simp)
      | none =>
        rw [h3] at h
        dsimp only at h
        cases h4 : s3find env.s3 key with
        | none => rw [h4] at h; exact absurd h (by simp)
        | some obj =>
          rw [h4] at h
          dsimp only at h
          cases h5 : msg.fileType with
          | none => rw [h5] at h; exact absurd h (by simp)
          | some ft =>
            rw [h5] at h
            dsimp only at h
            by_cases h6 : strStartsWith ft "image/" = true
            · rw [if_pos h6] at h
              cases h7 : f.transformErr with
              | some e => rw [h7] at h; exact absurd h (by simp)
              | none =>
                rw [h7] at h
                dsimp only at h
                cases h8 : decodeImage obj.body with
                | error e => rw [h8] at h; exact absurd h (by simp)
                | ok info =>
                  rw [h8] at h
                  dsimp only at h
                  obtain ⟨hdb, _, hcache⟩ := finishRun_ok_char _ _ _ _ _ _ h
                  exact ⟨ft, _, rfl, hdb, hcache,
                    by simp [processImage], by simp [processImage, h6]⟩
            · rw [if_neg h6] at h
              by_cases h9 : strStartsWith ft "video/" = true
              · rw [if_pos h9] at h
                cases h7 : f.transformErr with
                | some e => rw [h7] at h; exact absurd h (by simp)
                | none =>
                  rw [h7] at h
                  dsimp only at h
                  obtain ⟨hdb, _, hcache⟩ := finishRun_ok_char _ _ _ _ _ _ h
                  exact ⟨ft, _, rfl, hdb, hcache,
                    by simp [processVideo], by simp [processVideo, h9]⟩
              · rw [if_neg h9] at h
                obtain ⟨hdb, _, hcache⟩ := finishRun_ok_char _ _ _ _ _ _ h
                exact ⟨ft, _, rfl, hdb, hcache, by simp,
                  by simp [h6, h9]⟩

/-- With no cache-invalidation fault, a failed `processMedia` try raised
before the completion update: at the failure point the database holds
either its initial rows or the rows of the processing-status update. -/
theorem processMediaTry_err_char (f : Faults) (now : Nat) (msg : JobMsg)
    (env env' : WorkerEnv) (e : String) (hcch : f.cacheErr = none)
    (h : processMediaTry f now msg env = .error (e, env')) :
    env'.db = env.db ∨
    env'.db = updateMediaStatus env.db msg.mediaId .processing none now := by
  unfold processMediaTry at h
  cases h1 : f.statusUpdateErr with
  | some e0 =>
    rw [h1] at h
    simp only [Except.error.injEq, Prod.mk.injEq] at h
    exact .inl (by rw [← h.2])
  | none =>
    rw [h1] at h
    dsimp only at h
    cases h2 : msg.s3Key with
    | none =>
      rw [h2] at h
      simp only [Except.error.injEq, Prod.mk.injEq] at h
      exact .inr (by rw [← h.2])
    | some key =>
      rw [h2] at h
      dsimp only at h
      cases h3 : f.fetchErr with
      | some e0 =>
        rw [h3] at h
        simp only [Except.error.injEq, Prod.mk.injEq] at h
        exact .inr (by rw [← h.2])
      | none =>
        rw [h3] at h
        dsimp only at h
        cases h4 : s3find env.s3 key with
        | none =>
          rw [h4] at h
          simp only [Except.error.injEq, Prod.mk.injEq] at h
          exact .inr (by rw [← h.2])
        | some obj =>
          rw [h4] at h
          dsimp only at h
          cases h5 : msg.fileType with
          | none =>
            rw [h5] at h
            simp only [Except.error.injEq, Prod.mk.injEq] at h
            exact .inr (by rw [← h.2])
          | some ft =>
            rw [h5] at h
            dsimp only at h
            by_cases h6 : strStartsWith ft "image/" = true
            · rw [if_pos h6] at h
              cases h7 : f.transformErr with
              | some e0 =>
                rw [h7] at h
                simp only [Except.error.injEq, Prod.mk.injEq] at h
                exact .inr (by rw [← h.2])
              | none =>
                rw [h7] at h
                dsimp only at h
                cases h8 : decodeImage obj.body with
                | error e0 =>
                  rw [h8] at h
                  simp only [Except.error.injEq, Prod.mk.injEq] at h
                  exact .inr (by rw [← h.2])
                | ok info =>
                  rw [h8] at h
                  dsimp only at h
                  have he := finishRun_err_char _ _ _ _ _ _ _ hcch h
                  subst he
                  exact .inr rfl
            · rw [if_neg h6] at h
              by_cases h9 : strStartsWith ft "video/" = true
              · rw [if_pos h9] at h
                cases h7 : f.transformErr with
                | some e0 =>
                  rw [h7] at h
                  simp only [Except.error.injEq, Prod.mk.injEq] at h
                  exact .inr (by rw [← h.2])
                | none =>
                  rw [h7] at h
                  dsimp only at h
                  have he := finishRun_err_char _ _ _ _ _ _ _ hcch h
                  subst he
                  exact .inr rfl
              · rw [if_neg h9] at h
                have he := finishRun_err_char _ _ _ _ _ _ _ hcch h
                subst he
                exact .inr rfl

/-- A successful run is exactly a successful try. -/
theorem processMediaRun_ok_char (f : Faults) (now : Nat) (msg : JobMsg)
    (env env' : WorkerEnv) (h : processMediaRun f now msg env = .ok env') :
    processMediaTry f now msg env = .ok env' := by
  unfold processMediaRun at h
  cases ht : processMediaTry f now msg env with
  | ok e1 =>
    rw [ht] at h
    dsimp only at h
    exact h
  | error p =>
    obtain ⟨e0, env0⟩ := p
    rw [ht] at h
    exact absurd h (by simp)

/-- A failed run is a failed try followed by the catch block's
failed-status write on the state at the failure point. -/
theorem processMediaRun_err_char (f : Faults) (now : Nat) (msg : JobMsg)
    (env env' : WorkerEnv) (e : String)
    (h : processMediaRun f now msg env = .error (e, env')) :
    ∃ env0, processMediaTry f now msg env = .error (e, env0) ∧
      env' = { env0 with
        db := updateMediaStatus env0.db msg.mediaId .failed (some e) now } := by
  unfold processMediaRun at h
  cases ht : processMediaTry f now msg env with
  | ok e1 => rw [ht] at h; exact absurd h (by simp)
  | error p =>
    obtain ⟨e0, env0⟩ := p
    rw [ht] at h
    dsimp only at h
    simp only [Except.error.injEq, Prod.mk.injEq] at h
    obtain ⟨he, henv⟩ := h
    subst he
    exact ⟨env0, rfl, henv.symm⟩

/-- A metadata object with a `size` field has a non-empty field list. -/
theorem presentFields_ne_nil (m : Metadata) (h : m.size.isSome = true) :
    presentFields m ≠ [] := by
  unfold presentFields
  rw [if_pos h]
  simp

/-- Row constructor for concrete scenarios. -/
def mkRow (idv : Nat) (uid key ftype : String) (created : Nat)
    (st : MediaStatus) : MediaRow :=
  { id := idv, userId := uid, s3Key := key, fileName := key, fileType := ftype,
    status := st, metadata := none, thumbnailKey := none, errorMessage := none,
    createdAt := created, updatedAt := created, processedAt := none }

/-- First row of a table (fallback row for the empty table). -/
def headRow : DB → MediaRow
  | r :: _ => r
  | [] => mkRow 0 "" "" "" 0 .pending

/-- C1 (corrected): after a successful worker run, the rows matching the
message's mediaId have status ready, a present non-empty metadata
object, and no error message — but their `thumbnailKey` is present
exactly when the declared type matched `image/*` or `video/*`; on the
pass-through branch the row is ready with a NULL thumbnail key, so
readiness is not equivalent to the presence of a thumbnail key. -/
theorem C1_ready_rows_after_success (f : Faults) (now : Nat) (msg : JobMsg)
    (env env' : WorkerEnv) (ft : String)
    (hft : msg.fileType = some ft)
    (hrun : processMediaRun f now msg env = .ok env') :
    ∀ r ∈ env'.db, some r.id = msg.mediaId →
      r.status = .ready ∧
      r.metadata.isSome = true ∧
      r.metadata.map presentFields ≠ some [] ∧
      r.errorMessage = none ∧
      (r.thumbnailKey.isSome = true ↔
        (strStartsWith ft "image/" = true ∨ strStartsWith ft "video/" = true)) := by
  have htry := processMediaRun_ok_char _ _ _ _ _ hrun
  obtain ⟨ft', md, hft', hdb, _, hsize, hiff⟩ := processMediaTry_ok_char _ _ _ _ _ htry
  rw [hft] at hft'
  injection hft' with hfteq
  subst hfteq
  intro r hr hid
  rw [hdb] at hr
  obtain ⟨b, hb, hidb, herr, hmatched, _⟩ := updateMediaMetadata_mem _ _ _ _ _ r hr
  have hidb2 : some b.id = msg.mediaId := by rw [← hidb]; exact hid
  obtain ⟨hst, hmeta, hthumb, _⟩ := hmatched hidb2
  obtain ⟨b0, _, hid0, _, _, _, _, herr0⟩ := updateMediaStatus_mem _ _ _ _ _ b hb
  have hmid0 : some b0.id = msg.mediaId := by rw [← hid0]; exact hidb2
  refine ⟨hst, by rw [hmeta]; rfl, ?_, ?_, ?_⟩
  · rw [hmeta]
    intro hcon
    apply presentFields_ne_nil md hsize
    simpa using hcon
  · rw [herr, herr0, if_pos hmid0]
  · rw [hthumb]
    exact hiff

/-- A pass-through job: declared type `application/pdf`, stored object
present. -/
def c1Msg : JobMsg :=
  { mediaId := some 1, userId := some "7",
    s3Key := some "uploads/7/1-doc.pdf", fileType := some "application/pdf" }

/-- Initial state for the pass-through counterexample. -/
def c1Env : WorkerEnv :=
  { db := [mkRow 1 "7" "uploads/7/1-doc.pdf" "application/pdf" 1 .pending],
    s3 := [("uploads/7/1-doc.pdf",
      { body := .other 9, contentType := "application/pdf", contentLength := 9 })],
    cache := [] }

/-- C1 (counterexample to the claim as stated): a successful pass-through
run (declared type matching neither `image/*` nor `video/*`) leaves the
record with status ready, a present metadata object — and a NULL
thumbnail key, so "ready iff metadata and thumbnailKey are present and
non-empty" fails in the only-if direction. -/
theorem C1_counterexample :
    (processMediaRun noFaults 5 c1Msg c1Env).toOption.map
      (fun en => en.db.map (fun r => (r.status, r.thumbnailKey, r.metadata.isSome))) =
    some [(MediaStatus.ready, (none : Option String), true)] := by decide

/-- An image job for the corrected-claim witness. -/
def c1wMsg : JobMsg :=
  { mediaId := some 1, userId := some "7",
    s3Key := some "uploads/7/cat.jpg", fileType := some "image/jpeg" }

/-- Initial state for the image-job witness. -/
def c1wEnv : WorkerEnv :=
  { db := [mkRow 1 "7" "uploads/7/cat.jpg" "image/jpeg" 1 .pending],
    s3 := [("uploads/7/cat.jpg",
      { body := .image { width := 40, height := 30, format := "jpeg" } 999,
        contentType := "image/jpeg", contentLength := 999 })],
    cache := [] }

/-- Final state of the witness run. -/
def c1OkEnv : WorkerEnv :=
  match processMediaRun noFaults 5 c1wMsg c1wEnv with
  | .ok en => en
  | .error (_, en) => en

/-- C1 witness: the corrected statement applied to a concrete successful
image run. -/
theorem C1_witness :
    (headRow c1OkEnv.db).status = .ready ∧
    (headRow c1OkEnv.db).metadata.isSome = true ∧
    (headRow c1OkEnv.db).metadata.map presentFields ≠ some [] ∧
    (headRow c1OkEnv.db).errorMessage = none ∧
    ((headRow c1OkEnv.db).thumbnailKey.isSome = true ↔
      (strStartsWith "image/jpeg" "image/" = true ∨
       strStartsWith "image/jpeg" "video/" = true)) :=
  C1_ready_rows_after_success noFaults 5 c1wMsg c1wEnv c1OkEnv "image/jpeg"
    rfl rfl (headRow c1OkEnv.db) (by decide) (by decide)

/-- C2: when processing a descriptor raises, the worker first writes
status failed with the captured error message into every row matching
the descriptor's mediaId, then re-raises, so the batch invocation as a
whole fails with that error. -/
theorem C2_failure_marks_failed_then_reraises (f : Faults) (now : Nat)
    (msg : JobMsg) (env env' : WorkerEnv) (e : String) (rest : List SqsRecord)
    (hrun : processMediaRun f now msg env = .error (e, env')) :
    (∀ r ∈ env'.db, some r.id = msg.mediaId →
      r.status = .failed ∧ r.errorMessage = some e) ∧
    handler f now (.parsed msg :: rest) env = (env', some e) := by
  obtain ⟨env0, _, henv⟩ := processMediaRun_err_char _ _ _ _ _ _ hrun
  constructor
  · intro r hr hid
    rw [henv] at hr
    exact updateMediaStatus_matched _ _ _ _ _ r hr hid
  · simp [handler, hrun]

/-- Faults for the C2 witness: the object-store fetch raises. -/
def c2Faults : Faults := { fetchErr := some "connect ETIMEDOUT" }

/-- Final state of the C2 witness run. -/
def c2EnvF : WorkerEnv :=
  match processMediaRun c2Faults 7 c1wMsg c1wEnv with
  | .ok en => en
  | .error (_, en) => en

/-- C2 witness: a concrete fetch failure marks the row failed with the
captured message and fails the batch. -/
theorem C2_witness :
    ((headRow c2EnvF.db).status = .failed ∧
     (headRow c2EnvF.db).errorMessage = some "connect ETIMEDOUT") ∧
    handler c2Faults 7 [.parsed c1wMsg] c1wEnv = (c2EnvF, some "connect ETIMEDOUT") :=
  ⟨(C2_failure_marks_failed_then_reraises c2Faults 7 c1wMsg c1wEnv c2EnvF
      "connect ETIMEDOUT" [] rfl).1 (headRow c2EnvF.db) (by decide) (by decide),
   (C2_failure_marks_failed_then_reraises c2Faults 7 c1wMsg c1wEnv c2EnvF
      "connect ETIMEDOUT" [] rfl).2⟩

/-- The rows of a completion update keep their ids, and their
`processedAt` becomes the update time exactly on the matching rows. -/
theorem updateMediaMetadata_processedAt (db : DB) (mid : Option Nat)
    (md : Metadata) (st : MediaStatus) (now : Nat) :
    ∀ r ∈ updateMediaMetadata db mid md st now,
      ∃ b ∈ db, r.id = b.id ∧
        r.processedAt = (if some b.id = mid then some now else b.processedAt) := by
  intro r hr
  obtain ⟨b, hb, rfl⟩ := List.mem_map.mp hr
  by_cases h : some b.id = mid <;> exact ⟨b, hb, by simp [h]⟩

/-- C4 (corrected): `processedAt` is written only by the completion
update.  On a successful run, rows matching the message's mediaId get
`processedAt = now` and all other rows keep theirs; on a failed run
whose failure is not in the cache-invalidation step, no row's
`processedAt` changes at all — in particular a record that ends failed
without ever completing keeps a NULL `processedAt`. -/
theorem C4_processedAt_only_on_completion (f : Faults) (now : Nat)
    (msg : JobMsg) (env : WorkerEnv) :
    (∀ env', processMediaRun f now msg env = .ok env' →
      ∀ r ∈ env'.db, ∃ b ∈ env.db, r.id = b.id ∧
        r.processedAt =
          (if some b.id = msg.mediaId then some now else b.processedAt)) ∧
    (∀ e env', f.cacheErr = none →
      processMediaRun f now msg env = .error (e, env') →
      env'.db.map (fun r => (r.id, r.processedAt)) =
        env.db.map (fun r => (r.id, r.processedAt))) := by
  constructor
  · intro env' hrun r hr
    have htry := processMediaRun_ok_char _ _ _ _ _ hrun
    obtain ⟨ft, md, _, hdb, _, _, _⟩ := processMediaTry_ok_char _ _ _ _ _ htry
    rw [hdb] at hr
    obtain ⟨b1, hb1, hid1, hproc1⟩ := updateMediaMetadata_processedAt _ _ _ _ _ r hr
    obtain ⟨b, hb, hid0, _, _, hproc0, _, _⟩ := updateMediaStatus_mem _ _ _ _ _ b1 hb1
    refine ⟨b, hb, hid1.trans hid0, ?_⟩
    rw [hproc1, hid0, hproc0]
  · intro e env' hcch hrun
    obtain ⟨env0, htry, henv⟩ := processMediaRun_err_char _ _ _ _ _ _ hrun
    have hdb0 := processMediaTry_err_char _ _ _ _ _ _ hcch htry
    have hfinal : env'.db =
        updateMediaStatus env0.db msg.mediaId .failed (some e) now := by
      rw [henv]
    rw [hfinal, updateMediaStatus_keeps_processedAt]
    rcases hdb0 with h0 | h0
    · rw [h0]
    · rw [h0, updateMediaStatus_keeps_processedAt]

/-- A job whose object is missing from the store. -/
def c4Msg : JobMsg :=
  { mediaId := some 1, userId := some "7",
    s3Key := some "uploads/7/missing.jpg", fileType := some "image/jpeg" }

/-- Initial state for the C4 counterexample: one pending row with a NULL
`processedAt`, empty object store. -/
def c4Env : WorkerEnv :=
  { db := [mkRow 1 "7" "uploads/7/missing.jpg" "image/jpeg" 1 .pending],
    s3 := [], cache := [] }

/-- Final state of the C4 counterexample run. -/
def c4EnvF : WorkerEnv :=
  match processMediaRun noFaults 5 c4Msg c4Env with
  | .ok en => en
  | .error (_, en) => en

/-- C4 (counterexample to the claim as stated): a run that fails on the
object-store fetch ends with the record failed and `processedAt` still
NULL — the claim's "a record that ends failed has a non-null
processedAt" does not hold. -/
theorem C4_counterexample :
    exceptIsOk (processMediaRun noFaults 5 c4Msg c4Env) = false ∧
    c4EnvF.db.map (fun r => (r.status, r.processedAt)) =
      [(MediaStatus.failed, (none : Option Nat))] := by decide

/-- C4 witness: the corrected statement's failure part applied to the
concrete failing run. -/
theorem C4_witness :
    c4EnvF.db.map (fun r => (r.id, r.processedAt)) =
      c4Env.db.map (fun r => (r.id, r.processedAt)) :=
  (C4_processedAt_only_on_completion noFaults 5 c4Msg c4Env).2
    "NoSuchKey: The specified key does not exist." c4EnvF rfl rfl

/-- A try against a message missing `s3Key` or `fileType` always
raises: the undefined `s3Key` fails the object-store get's parameter
validation, and the undefined `fileType` raises a TypeError at the
dispatch's `startsWith`. -/
theorem processMediaTry_missing_field_err (f : Faults) (now : Nat)
    (msg : JobMsg) (env : WorkerEnv)
    (hmsg : msg.s3Key = none ∨ msg.fileType = none) :
    exceptIsOk (processMediaTry f now msg env) = false := by
  unfold processMediaTry
  cases h1 : f.statusUpdateErr with
  | some e => rfl
  | none =>
    dsimp only
    cases h2 : msg.s3Key with
    | none => rfl
    | some key =>
      dsimp only
      have hft : msg.fileType = none := by
        rcases hmsg with hx | hx
        · rw [hx] at h2; exact absurd h2 (by simp)
        · exact hx
      cases h3 : f.fetchErr with
      | some e => rfl
      | none =>
        dsimp only
        cases h4 : s3find env.s3 key with
        | none => rfl
        | some obj =>
          dsimp only
          rw [hft]
          rfl

/-- C5 (corrected): a malformed body fails the whole batch, and a
descriptor missing `s3Key` or `fileType` also fails the batch (the
missing field raises during processing); per-message isolation is
absent in both cases.  A descriptor missing only `mediaId` or `userId`
does not raise (see the counterexample). -/
theorem C5_malformed_and_missing_key_or_type_fatal (f : Faults) (now : Nat)
    (msg : JobMsg) (env : WorkerEnv) (raw : String) (rest : List SqsRecord)
    (hmsg : msg.s3Key = none ∨ msg.fileType = none) :
    (handler f now (.malformed raw :: rest) env).2 =
      some "SyntaxError: Unexpected token in JSON at position 0" ∧
    exceptIsOk (processMediaRun f now msg env) = false ∧
    (handler f now (.parsed msg :: rest) env).2.isSome = true := by
  have htry := processMediaTry_missing_field_err f now msg env hmsg
  have hrun : ∃ e env0, processMediaRun f now msg env = .error (e, env0) := by
    unfold processMediaRun
    cases ht : processMediaTry f now msg env with
    | ok e1 => rw [ht] at htry; simp [exceptIsOk] at htry
    | error p =>
      obtain ⟨e0, env0⟩ := p
      exact ⟨e0, _, rfl⟩
  obtain ⟨e0, env0, hrun⟩ := hrun
  refine ⟨rfl, ?_, ?_⟩
  · rw [hrun]; rfl
  · simp [handler, hrun]

/-- A descriptor missing both `mediaId` and `userId`, with a decodable
stored object. -/
def c5Msg : JobMsg :=
  { mediaId := none, userId := none,
    s3Key := some "uploads/7/cat.jpg", fileType := some "image/jpeg" }

/-- Initial state for the C5 counterexample. -/
def c5Env : WorkerEnv :=
  { db := [mkRow 1 "7" "uploads/7/cat.jpg" "image/jpeg" 1 .pending],
    s3 := [("uploads/7/cat.jpg",
      { body := .image { width := 40, height := 30, format := "jpeg" } 999,
        contentType := "image/jpeg", contentLength := 999 })],
    cache := [] }

/-- C5 (counterexample to the claim as stated): a batch whose only
descriptor is missing the required fields `mediaId` and `userId` is
processed without raising — the invocation returns normally, so missing
required fields are not in general fatal to the batch. -/
theorem C5_counterexample :
    (handler noFaults 5 [.parsed c5Msg] c5Env).2 = none := by decide

/-- A descriptor missing `s3Key`. -/
def c5wMsg : JobMsg :=
  { mediaId := some 1, userId := some "7", s3Key := none,
    fileType := some "image/jpeg" }

/-- C5 witness: the corrected statement at a concrete descriptor with a
missing `s3Key`. -/
theorem C5_witness :
    (c5wMsg.s3Key = none ∨ c5wMsg.fileType = none) ∧
    ((handler noFaults 5 [.malformed "oops"] c5Env).2 =
        some "SyntaxError: Unexpected token in JSON at position 0" ∧
     exceptIsOk (processMediaRun noFaults 5 c5wMsg c5Env) = false ∧
     (handler noFaults 5 [.parsed c5wMsg] c5Env).2.isSome = true) :=
  ⟨Or.inl rfl,
   C5_malformed_and_missing_key_or_type_fatal noFaults 5 c5wMsg c5Env
     "oops" [] (Or.inl rfl)⟩

/-- C3 (counterexample to the claim as stated): a 100×50 source — smaller
than 800 in both dimensions — yields a medium derivative of 800×400, not
one at the original dimensions: the inside fit upscales because
`withoutEnlargement` is not requested. -/
theorem C3_counterexample :
    (100 < 800 ∧ 50 < 800) ∧
    s3find (processImage "uploads/7/a.jpg"
        { width := 100, height := 50, format := "png" } {} []).2
      "uploads/7/a_medium.jpg" =
      some { body := Blob.jpegOut 800 400 85, contentType := "image/jpeg",
             contentLength := 0 } ∧
    ((800 : Nat), (400 : Nat)) ≠ ((100 : Nat), (50 : Nat)) := by decide

/-- C3 witness: the corrected statement at the 1000×500 scenario
source (medium derivative 800×400). -/
theorem C3_witness :
    (1 ≤ 1000 ∧ 1 ≤ 500) ∧
    ((processImage "uploads/7/1700000000-cat.jpg"
        { width := 1000, height := 500, format := "jpeg" } {} []).2 =
      (mediumKeyOf "uploads/7/1700000000-cat.jpg",
        { body := Blob.jpegOut (fitInside 1000 500 800 800).1
                    (fitInside 1000 500 800 800).2 85,
          contentType := "image/jpeg", contentLength := 0 }) ::
      (thumbKeyOf "uploads/7/1700000000-cat.jpg",
        { body := Blob.jpegOut 300 300 80,
          contentType := "image/jpeg", contentLength := 0 }) :: [] ∧
     fitCover 1000 500 300 300 = (300, 300) ∧
     (fitInside 1000 500 800 800).1 ≤ 800 ∧
     (fitInside 1000 500 800 800).2 ≤ 800 ∧
     2 * ((fitInside 1000 500 800 800).1 * 500) ≤
       2 * (1000 * (fitInside 1000 500 800 800).2) + max 1000 500 ∧
     2 * (1000 * (fitInside 1000 500 800 800).2) ≤
       2 * ((fitInside 1000 500 800 800).1 * 500) + max 1000 500) :=
  ⟨⟨by decide, by decide⟩,
   C3_image_derivative_dimensions "uploads/7/1700000000-cat.jpg"
     { width := 1000, height := 500, format := "jpeg" } {} []
     (by decide) (by decide)⟩

/-- C7 (corrected): the video transform sets the `duration` and `codec`
sentinels (0 and "unknown"), writes the fixed base64 placeholder image
under the `_thumb.jpg` derivative key, and records that key in the
returned metadata — but the returned object is not shaped like the image
transform's: starting from the same base metadata, the video result's
field names are size/contentType/duration/codec/thumbnailKey while the
image result's are size/contentType/width/height/format/thumbnailKey/
mediumKey. -/
theorem C7_video_transform_contract (key ikey : String) (sz : Nat)
    (ct : String) (info : ImageInfo) (store istore : S3Store) :
    (processVideo key { size := some sz, contentType := some ct } store).1.duration
        = some 0 ∧
    (processVideo key { size := some sz, contentType := some ct } store).1.codec
        = some "unknown" ∧
    (processVideo key { size := some sz, contentType := some ct } store).1.thumbnailKey
        = some (thumbKeyOf key) ∧
    (processVideo key { size := some sz, contentType := some ct } store).2 =
      s3putObject store (thumbKeyOf key)
        (Blob.base64Png placeholderThumbnailB64) "image/jpeg" ∧
    presentFields (processVideo key { size := some sz, contentType := some ct } store).1 =
      ["size", "contentType", "duration", "codec", "thumbnailKey"] ∧
    presentFields (processImage ikey info
        { size := some sz, contentType := some ct } istore).1 =
      ["size", "contentType", "width", "height", "format", "thumbnailKey", "mediumKey"] ∧
    presentFields (processVideo key { size := some sz, contentType := some ct } store).1 ≠
      presentFields (processImage ikey info
        { size := some sz, contentType := some ct } istore).1 := by
  refine ⟨rfl, rfl, rfl, rfl, ?_, ?_, ?_⟩ <;>
    simp [processVideo, processImage, presentFields]

/-- C7 (counterexample to the claim as stated): for a concrete video job
and a concrete image job with identical base metadata, the two returned
metadata objects do not carry the same field names. -/
theorem C7_counterexample :
    presentFields (processVideo "uploads/7/v.mp4"
        { size := some 9, contentType := some "video/mp4" } []).1 ≠
    presentFields (processImage "uploads/7/i.jpg"
        { width := 10, height := 10, format := "jpeg" }
        { size := some 9, contentType := some "image/jpeg" } []).1 := by decide

/-- A key whose every binding violates `p` has no binding after
filtering by `p`. -/
theorem cacheGet_filter_none (c : Cache) (k : String)
    (p : String × List MediaRow → Bool) (hp : ∀ v, p (k, v) = false) :
    cacheGet (c.filter p) k = none := by
  unfold cacheGet
  have h2 : List.find? (fun kv => kv.1 == k) (c.filter p) = none := by
    rw [List.find?_eq_none]
    intro kv hkv
    obtain ⟨_, hpkv⟩ := List.mem_filter.mp hkv
    intro hbeq
    have hk1 : kv.1 = k := by simpa using hbeq
    have h3 : p kv = false := by
      have h4 := hp kv.2
      rw [← hk1] at h4
      exact h4
    rw [h3] at hpkv
    exact absurd hpkv (by simp)
  rw [h2]

/-- A key with no binding still has none after filtering. -/
theorem cacheGet_none_filter (c : Cache) (k : String)
    (p : String × List MediaRow → Bool) (h : cacheGet c k = none) :
    cacheGet (c.filter p) k = none := by
  unfold cacheGet at h ⊢
  cases hf : List.find? (fun kv => kv.1 == k) c with
  | some kv => rw [hf] at h; exact absurd h (by simp)
  | none =>
    have hall := List.find?_eq_none.mp hf
    have h2 : List.find? (fun kv => kv.1 == k) (c.filter p) = none := by
      rw [List.find?_eq_none]
      intro kv hkv
      exact hall kv (List.mem_filter.mp hkv).1
    rw [h2]

/-- `redis.del k` removes every binding for `k`. -/
theorem cacheGet_cacheDel (c : Cache) (k : String) :
    cacheGet (cacheDel c k) k = none := by
  unfold cacheDel
  apply cacheGet_filter_none
  intro v
  simp

/-- Pattern deletion removes every binding whose key matches the glob. -/
theorem cacheGet_delMatching_matched (c : Cache) (pat k : String)
    (h : globMatchStr pat k = true) :
    cacheGet (cacheDelMatching c pat) k = none := by
  unfold cacheDelMatching
  apply cacheGet_filter_none
  intro v
  simp [h]

/-- Pattern deletion preserves the absence of a binding. -/
theorem cacheGet_delMatching_none (c : Cache) (pat k : String)
    (h : cacheGet c k = none) :
    cacheGet (cacheDelMatching c pat) k = none := by
  unfold cacheDelMatching
  exact cacheGet_none_filter _ _ _ h

/-- C8: after a successful run for user `u`, the exact listing key
`user:{u}:media` has no cache binding, neither has any key matching the
glob `user:{u}:media:*`, and a subsequent listing read for `u` misses
the cache and performs a fresh database read. -/
theorem C8_cache_invalidated_after_success (f : Faults) (now : Nat)
    (msg : JobMsg) (env env' : WorkerEnv) (u : String) (db2 : DB)
    (hu : msg.userId = some u)
    (hrun : processMediaRun f now msg env = .ok env') :
    cacheGet env'.cache (userMediaKey u) = none ∧
    (∀ k, globMatchStr (userMediaKey u ++ ":*") k = true →
      cacheGet env'.cache k = none) ∧
    apiListMedia env'.cache db2 u =
      (mediaListing db2 u,
       cacheSet env'.cache (userMediaKey u) (mediaListing db2 u)) := by
  have htry := processMediaRun_ok_char _ _ _ _ _ hrun
  obtain ⟨ft, md, _, _, hcache, _, _⟩ := processMediaTry_ok_char _ _ _ _ _ htry
  rw [hu] at hcache
  have hinv : env'.cache =
      cacheDelMatching (cacheDel env.cache (userMediaKey u))
        (userMediaKey u ++ ":*") := by
    rw [hcache]
    rfl
  have h1 : cacheGet env'.cache (userMediaKey u) = none := by
    rw [hinv]
    exact cacheGet_delMatching_none _ _ _ (cacheGet_cacheDel _ _)
  refine ⟨h1, ?_, ?_⟩
  · intro k hk
    rw [hinv]
    exact cacheGet_delMatching_matched _ _ _ hk
  · unfold apiListMedia
    rw [h1]

/-- A video job for the C8 witness. -/
def c8Msg : JobMsg :=
  { mediaId := some 1, userId := some "7",
    s3Key := some "uploads/7/clip.mp4", fileType := some "video/mp4" }

/-- Initial state for the C8 witness: the cache holds the user's listing
key, a prefixed derivative key and an unrelated user's key. -/
def c8Env : WorkerEnv :=
  { db := [mkRow 1 "7" "uploads/7/clip.mp4" "video/mp4" 1 .pending],
    s3 := [("uploads/7/clip.mp4",
      { body := .video 777, contentType := "video/mp4", contentLength := 777 })],
    cache := [("user:7:media", [mkRow 2 "7" "k" "t" 1 .ready]),
              ("user:7:media:p2", []),
              ("user:9:media", [])] }

/-- Final state of the C8 witness run. -/
def c8EnvF : WorkerEnv :=
  match processMediaRun noFaults 5 c8Msg c8Env with
  | .ok en => en
  | .error (_, en) => en

/-- Database contents for the post-invalidation listing read. -/
def c8Db2 : DB := [mkRow 3 "7" "x" "t" 9 .ready]

/-- C8 witness: the statement at a concrete successful video run. -/
theorem C8_witness :
    cacheGet c8EnvF.cache (userMediaKey "7") = none ∧
    cacheGet c8EnvF.cache "user:7:media:p2" = none ∧
    apiListMedia c8EnvF.cache c8Db2 "7" =
      (mediaListing c8Db2 "7",
       cacheSet c8EnvF.cache (userMediaKey "7") (mediaListing c8Db2 "7")) :=
  ⟨(C8_cache_invalidated_after_success noFaults 5 c8Msg c8Env c8EnvF "7" c8Db2
      rfl rfl).1,
   (C8_cache_invalidated_after_success noFaults 5 c8Msg c8Env c8EnvF "7" c8Db2
      rfl rfl).2.1 "user:7:media:p2" (by decide),
   (C8_cache_invalidated_after_success noFaults 5 c8Msg c8Env c8EnvF "7" c8Db2
      rfl rfl).2.2⟩

/-- Database contents for the C10 witness. -/
def c10Db : DB :=
  [mkRow 1 "7" "a" "t" 3 .ready, mkRow 2 "7" "b" "t" 9 .ready,
   mkRow 3 "7" "c" "t" 5 .pending, mkRow 4 "8" "d" "t" 2 .ready,
   mkRow 5 "7" "e" "t" 1 .failed]

/-- C10 witness: the listing properties at a concrete mixed-status
table, read with an empty cache. -/
theorem C10_witness : listingGood "7" (apiListMedia [] c10Db "7").1 :=
  C10_listing_only_ready_bounded_sorted [] c10Db "7"
    (fun v h => absurd h (by simp [cacheGet, List.find?]))

end MediaPlatform
